import Mathlib

/-!
# Formal model of the EBU sales-leaderboard client

A shallow embedding of the logic of `src/app/auth.tsx` and
`src/app/(tabs)/_layout.tsx`: phone-number normalisation and validation,
registration with duplicate checks, the monthly sales ledger
(fetch-then-upsert accumulation keyed on `(user_id, month_year)`), the
leaderboard ranking computation, and the zone classification.

JavaScript strings are modelled as `List Char`; the remote record store is
modelled as an explicit `Db` value threaded through each operation, with
network failures injected through explicit flags.
-/

namespace EBU

/-- JavaScript strings are modelled as lists of characters. -/
abbrev Str := List Char

/-- Models `String.prototype.trim`: strip leading and trailing whitespace. -/
def trimL (l : Str) : Str :=
  ((l.dropWhile Char.isWhitespace).reverse.dropWhile Char.isWhitespace).reverse

/-- The fixed phone prefix `"+254"` used throughout `auth.tsx`. -/
def plus254 : Str := "+254".data

/-- Models `formatPhoneNumber` (`auth.tsx` lines 118-125) on character lists:
if the input does not start with `"+254"` the whole input is replaced by the
bare prefix; otherwise everything after the prefix is stripped of non-digits
(`replace(/\D/g, '')`) and truncated to 9 characters (`substring(0, 9)`). -/
def formatPhoneNumberL (phone : Str) : Str :=
  if phone.take 4 = plus254 then
    plus254 ++ ((phone.drop 4).filter Char.isDigit).take 9
  else plus254

/-- `formatPhoneNumber` at `String` type, as in the source. -/
def formatPhoneNumber (phone : String) : String :=
  String.mk (formatPhoneNumberL phone.data)

/-- Models `phone.replace('+254', '')`: JavaScript `replace` with a string
pattern removes only the first occurrence of `"+254"`; an input without the
substring is returned unchanged. -/
def dropPlus254First : Str → Str
  | '+' :: '2' :: '5' :: '4' :: rest => rest
  | c :: cs => c :: dropPlus254First cs
  | [] => []

/-- Models the regex test `/^[17]\d{8}$/` from `auth.tsx` line 87: the string
is one character `1` or `7` followed by exactly eight digits. -/
def validPhoneDigits (l : Str) : Bool :=
  match l with
  | c :: rest => (c == '1' || c == '7') && rest.length == 8 && rest.all Char.isDigit
  | [] => false

/-- Models the phone branch of `validateForm` (`auth.tsx` lines 83-90): the
digits left after removing the first `"+254"` must match `/^[17]\d{8}$/`.
The separate required-field check for an all-whitespace value also fails this
test, so the boolean verdict agrees with the source. -/
def validatePhoneField (l : Str) : Bool :=
  validPhoneDigits (dropPlus254First l)

/-- Follows the spec's words, for comparison with the source-derived
validation: a stored phone value "matches `+254` followed by exactly 9 digits
starting with `1` or `7`". -/
def specPhonePattern (l : Str) : Bool :=
  l.take 4 == plus254 && validPhoneDigits (l.drop 4)

/-- Models `'+254' + formData.phoneNumber.replace('+254', '')`
(`auth.tsx` lines 134-135): the phone value that registration stores. -/
def fullPhone (l : Str) : Str := plus254 ++ dropPlus254First l

/-- The five zone colour constants (`_layout.tsx` lines 953-959). -/
structure ZoneColors where
  red : Str
  yellow : Str
  orange : Str
  lightGreen : Str
  darkGreen : Str
deriving DecidableEq

/-- `zoneColors` from `_layout.tsx` lines 953-959. -/
def zoneColors : ZoneColors :=
  ⟨"#EF4444".data, "#F59E0B".data, "#F97316".data, "#10B981".data, "#059669".data⟩

/-- Models `getZoneColor` (`_layout.tsx` lines 1159-1165). -/
def getZoneColor (connections : Nat) : Str :=
  if connections < 5 then zoneColors.red
  else if connections ≤ 10 then zoneColors.yellow
  else if connections ≤ 15 then zoneColors.orange
  else if connections ≤ 20 then zoneColors.lightGreen
  else zoneColors.darkGreen

/-- A calendar date, as supplied by the date picker. -/
structure CalDate where
  year : Nat
  month : Nat
  day : Nat
deriving DecidableEq

/-- Decimal digit characters used by the ISO date rendering. -/
def digitChar : Nat → Char
  | 0 => '0'
  | 1 => '1'
  | 2 => '2'
  | 3 => '3'
  | 4 => '4'
  | 5 => '5'
  | 6 => '6'
  | 7 => '7'
  | 8 => '8'
  | 9 => '9'
  | _ => '0'

/-- A number rendered as four zero-padded decimal digits. -/
def pad4 (n : Nat) : Str :=
  [digitChar (n / 1000 % 10), digitChar (n / 100 % 10),
   digitChar (n / 10 % 10), digitChar (n % 10)]

/-- A number rendered as two zero-padded decimal digits. -/
def pad2 (n : Nat) : Str :=
  [digitChar (n / 10 % 10), digitChar (n % 10)]

/-- Models `date.toISOString().slice(0, 7)` (`_layout.tsx` line 1211 and
line 1084): the `YYYY-MM` month key. The ECMA-262 date-time string format
pads the year to four digits and the month to two; the expanded-year format
used for years outside 0..9999 is outside the modelled range. -/
def toISOSlice7 (d : CalDate) : Str :=
  pad4 d.year ++ '-' :: pad2 d.month

/-- Decimal value of a digit string, used to read a rendered key back. -/
def natOfDec (l : Str) : Nat :=
  l.foldl (fun acc c => acc * 10 + (c.toNat - 48)) 0

/-- Hexadecimal digit value, for the `0x` branch of `parseInt`. -/
def hexDigitVal (c : Char) : Option Nat :=
  if c.isDigit then some (c.toNat - 48)
  else if 'a' ≤ c ∧ c ≤ 'f' then some (c.toNat - 87)
  else if 'A' ≤ c ∧ c ≤ 'F' then some (c.toNat - 55)
  else none

/-- Decimal digit value. -/
def decDigitVal (c : Char) : Option Nat :=
  if c.isDigit then some (c.toNat - 48) else none

/-- Longest prefix of digits valid for the given digit reader. -/
def leadingDigits (dv : Char → Option Nat) : Str → List Nat
  | [] => []
  | c :: cs =>
    match dv c with
    | some v => v :: leadingDigits dv cs
    | none => []

/-- Value of a most-significant-first digit list in the given base. -/
def digitsToNat (base : Nat) (ds : List Nat) : Nat :=
  ds.foldl (fun acc d => acc * base + d) 0

/-- Models JavaScript `parseInt(s)` with no radix argument: skip leading
whitespace, read an optional sign, switch to base 16 after a `0x`/`0X`
prefix, then read the longest run of digits; `NaN` (here `none`) when no
digit is read. -/
def parseIntJS (l : Str) : Option Int :=
  let l1 := l.dropWhile Char.isWhitespace
  let signed : Bool × Str :=
    match l1 with
    | '-' :: r => (true, r)
    | '+' :: r => (false, r)
    | _ => (false, l1)
  let based : Nat × Str :=
    match signed.2 with
    | '0' :: 'x' :: r => (16, r)
    | '0' :: 'X' :: r => (16, r)
    | _ => (10, signed.2)
  let ds := leadingDigits (if based.1 = 16 then hexDigitVal else decDigitVal) based.2
  if ds.isEmpty then none
  else
    let v : Int := Int.ofNat (digitsToNat based.1 ds)
    some (if signed.1 then -v else v)

/-- A row of the `users` table (§6 of the design: id, name, phone_number,
id_number, password, is_admin; timestamps are not read by any modelled
operation and are omitted). -/
structure UserRow where
  id : Str
  name : Str
  phoneNumber : Str
  idNumber : Str
  password : Str
  isAdmin : Bool
deriving DecidableEq

/-- A row of the `sales` table: user_id, connections, month_year, updated_at. -/
structure SalesRow where
  userId : Str
  connections : Nat
  monthYear : Str
  updatedAt : Str
deriving DecidableEq

/-- The remote record store visible to the client. -/
structure Db where
  users : List UserRow
  sales : List SalesRow
deriving DecidableEq

/-- Models a supabase `select ... .single()` read: the data is the row when
exactly one row matches the filter, and null (`none`) otherwise (zero or
several matches make `.single()` report an error and no data). -/
def findSingle {α : Type} (p : α → Bool) (l : List α) : Option α :=
  match l.filter p with
  | [u] => some u
  | _ => none

/-- The registration form of `auth.tsx`. -/
structure AuthForm where
  idNumber : Str
  phoneNumber : Str
  name : Str
  password : Str
  confirmPassword : Str
deriving DecidableEq

/-- Models `validateForm` of `auth.tsx` (lines 70-116) with `isLogin = false`:
the ID number trims to at least 8 characters, all digits; the phone field
passes the `/^[17]\d{8}$/` test after removing the first `"+254"`; the name
trims to at least 2 characters; the password is at least 6 characters and
non-blank; the confirmation is non-blank and equal to the password.
Validation succeeds exactly when no field error is recorded. -/
def validateRegisterForm (f : AuthForm) : Bool :=
  (!(trimL f.idNumber).isEmpty && decide (8 ≤ (trimL f.idNumber).length)
    && (trimL f.idNumber).all Char.isDigit)
  && validatePhoneField f.phoneNumber
  && (!(trimL f.name).isEmpty && decide (2 ≤ (trimL f.name).length))
  && (!(trimL f.password).isEmpty && decide (6 ≤ f.password.length))
  && (!(trimL f.confirmPassword).isEmpty && f.password == f.confirmPassword)

/-- The outcome of a registration attempt. -/
inductive RegResult
  | validationError
  | conflictPhone
  | conflictId
  | ok
deriving DecidableEq

/-- Models `handleRegister` (`auth.tsx` lines 127-204): validate, look up the
normalised phone number and then the trimmed ID number with `.single()`
reads, refuse with a conflict and no write when either exists, otherwise
insert the new user row (the backend-assigned id is passed as `newId`). -/
def handleRegister (f : AuthForm) (db : Db) (newId : Str) : RegResult × Db :=
  if !(validateRegisterForm f) then (.validationError, db)
  else
    let phone := fullPhone f.phoneNumber
    match findSingle (fun u => u.phoneNumber == phone) db.users with
    | some _ => (.conflictPhone, db)
    | none =>
      match findSingle (fun u => u.idNumber == trimL f.idNumber) db.users with
      | some _ => (.conflictId, db)
      | none =>
        (.ok, ⟨db.users ++ [⟨newId, trimL f.name, phone, trimL f.idNumber, f.password, false⟩],
               db.sales⟩)

/-- The admin sales-submission form (`ModalFormData` in `_layout.tsx`). -/
structure SalesForm where
  userId : Str
  connections : Str
  date : Option CalDate
deriving DecidableEq

/-- Models `validateForm` of `_layout.tsx` (lines 1182-1204): an agent must be
selected, the connections field must trim non-blank and `parseInt` to a
number that is not `NaN` and not negative, and a date must be selected. -/
def validateSalesForm (f : SalesForm) : Bool :=
  !f.userId.isEmpty
  && (!(trimL f.connections).isEmpty
      && (match parseIntJS f.connections with
          | some n => decide (0 ≤ n)
          | none => false))
  && f.date.isSome

/-- The sales-row filter `eq('user_id', uid).eq('month_year', my)`. -/
def keyMatch (uid my : Str) (r : SalesRow) : Bool :=
  r.userId == uid && r.monthYear == my

/-- The `.single()` fetch of the existing record for `(user_id, month_year)`
(`_layout.tsx` lines 1214-1219). -/
def fetchSalesSingle (sales : List SalesRow) (uid my : Str) : Option SalesRow :=
  findSingle (keyMatch uid my) sales

/-- `existingData ? existingData.connections : 0` (`_layout.tsx` line 1227). -/
def connFor (sales : List SalesRow) (uid my : Str) : Nat :=
  ((fetchSalesSingle sales uid my).map SalesRow.connections).getD 0

/-- Number of stored rows for a `(user_id, month_year)` key; the backend's
unique constraint backing `onConflict: 'user_id,month_year'` keeps it at
most one. -/
def keyCount (sales : List SalesRow) (uid my : Str) : Nat :=
  sales.countP (keyMatch uid my)

/-- Models the `upsert` with `onConflict: 'user_id,month_year'`
(`_layout.tsx` lines 1232-1241): rows sharing the conflict key are updated
with the new connections value and timestamp, and a fresh row is inserted
when none shares it. -/
def upsertSales (sales : List SalesRow) (uid my : Str) (c : Nat) (now : Str) : List SalesRow :=
  if sales.any (keyMatch uid my) then
    sales.map (fun r => if keyMatch uid my r then ⟨r.userId, c, r.monthYear, now⟩ else r)
  else sales ++ [⟨uid, c, my, now⟩]

/-- The observable outcome of one sales submission. -/
inductive SubmitOutcome
  | invalid
  | fetchFailed
  | upsertFailed
  | success
deriving DecidableEq

/-- Failure injection for the two remote calls of a submission. -/
structure RemoteFlags where
  fetchFails : Bool
  upsertFails : Bool
deriving DecidableEq

/-- Models `handleSubmit` (`_layout.tsx` lines 1206-1266): validate, resolve
the month key from the form date, fetch the existing total (absent rows,
signalled by `PGRST116`, count as 0), add the parsed delta, and upsert the
new total. A thrown fetch or upsert error leaves the store untouched. -/
def handleSubmit (f : SalesForm) (db : Db) (now : Str) (r : RemoteFlags) : SubmitOutcome × Db :=
  if !(validateSalesForm f) then (.invalid, db)
  else if r.fetchFails then (.fetchFailed, db)
  else
    let my := toISOSlice7 (f.date.getD ⟨0, 0, 0⟩)
    let current := connFor db.sales f.userId my
    let delta := ((parseIntJS f.connections).getD 0).toNat
    let updated := current + delta
    if r.upsertFails then (.upsertFailed, db)
    else (.success, ⟨db.users, upsertSales db.sales f.userId my updated now⟩)

/-- A serial sequence of failure-free submissions of the connection strings
`cs` for the same agent and date. -/
def serialSubmit (uid : Str) (d : CalDate) (cs : List Str) (db : Db) (now : Str) : Db :=
  cs.foldl (fun acc c => (handleSubmit ⟨uid, c, some d⟩ acc now ⟨false, false⟩).2) db

/-- Errors of the spec-level `recordSale` operation (§4.1). -/
inductive LedgerErr
  | notFound
  | persistenceError
deriving DecidableEq

/-- Modelled from the spec: the user-existence check of
`recordSale(user_id, date, delta_connections)` is not in the client source —
`validateForm`/`handleSubmit` in `_layout.tsx` only check that an agent was
selected, and the `NotFound` rejection of an unknown `user_id` lives in the
external backend. Following §4.1: resolve the month key, treat an absent
record as 0, add the delta and upsert, failing with `NotFound` when
`user_id` references no existing user and with `PersistenceError` when the
upsert write fails; a failed call leaves the store unchanged. -/
def recordSale (db : Db) (uid : Str) (d : CalDate) (delta : Nat) (now : Str)
    (upsertFails : Bool) : Except LedgerErr SalesRow × Db :=
  if db.users.any (fun u => u.id == uid) then
    if upsertFails then (.error .persistenceError, db)
    else
      let my := toISOSlice7 d
      let c := connFor db.sales uid my + delta
      (.ok ⟨uid, c, my, now⟩, ⟨db.users, upsertSales db.sales uid my c now⟩)
  else (.error .notFound, db)

/-- One row of the ranked leaderboard (`LeaderboardItem` in `_layout.tsx`). -/
structure LeaderboardItem where
  user_id : Str
  name : Str
  connections : Nat
  rank : Nat
deriving DecidableEq

/-- Models `item.users?.name || 'Unknown'` (`_layout.tsx` line 1109): after
the inner join a user row is present, and only a falsy (empty) name is
replaced by `'Unknown'`. -/
def displayName (l : Str) : Str :=
  if l.isEmpty then "Unknown".data else l

/-- The `users!inner(name)` join of the leaderboard query: each sales row is
paired with its user row, and rows whose user cannot be resolved are
dropped. -/
def joinUsers (users : List UserRow) (rows : List SalesRow) : List (SalesRow × UserRow) :=
  rows.filterMap (fun r => (users.find? (fun u => u.id == r.userId)).map (fun u => (r, u)))

/-- Descending order on connections, as requested by
`.order('connections', ascending := false)` — written here as the backend's
comparison relation. -/
def connDesc (a b : SalesRow) : Prop :=
  b.connections ≤ a.connections

instance : DecidableRel connDesc := fun _ _ => Nat.decLe _ _

instance : IsTotal SalesRow connDesc :=
  ⟨fun a b => Nat.le_total b.connections a.connections⟩

instance : IsTrans SalesRow connDesc :=
  ⟨fun _ _ _ hab hbc => Nat.le_trans hbc hab⟩

/-- The backend read of the leaderboard query: all sales rows of the target
month, in a stable descending order on `connections` (ties keep the stored
fetch order; no secondary sort key). -/
def selectMonthDesc (sales : List SalesRow) (my : Str) : List SalesRow :=
  List.insertionSort connDesc (sales.filter (fun r => r.monthYear == my))

/-- Models `(data || []).map((item, index) => ({..., rank: index + 1}))`
(`_layout.tsx` lines 1107-1112), carrying the running index. -/
def rankify : Nat → List (SalesRow × UserRow) → List LeaderboardItem
  | _, [] => []
  | i, (r, u) :: rest =>
    ⟨r.userId, displayName u.name, r.connections, i + 1⟩ :: rankify (i + 1) rest

/-- `computeLeaderboard`: the pure core of `fetchLeaderboard`
(`_layout.tsx` lines 1082-1116) for a given month key. -/
def computeLeaderboard (db : Db) (my : Str) : List LeaderboardItem :=
  rankify 0 (joinUsers db.users (selectMonthDesc db.sales my))

/-- `fetchLeaderboard` with its error path: a failed backend read surfaces an
error, otherwise the ranked list — possibly empty — is produced. -/
def fetchLeaderboard (db : Db) (my : Str) (fetchFails : Bool) :
    Except Unit (List LeaderboardItem) :=
  if fetchFails then .error () else .ok (computeLeaderboard db my)

/-- The uniqueness invariant of §3: stored users have pairwise distinct phone
numbers and pairwise distinct ID numbers. -/
def usersUnique (db : Db) : Prop :=
  db.users.Pairwise (fun a b => a.phoneNumber ≠ b.phoneNumber ∧ a.idNumber ≠ b.idNumber)

/-! ## Phone normalisation lemmas -/

lemma formatL_shape (l : Str) :
    ∃ ds : Str, formatPhoneNumberL l = plus254 ++ ds
      ∧ ds.all Char.isDigit = true ∧ ds.length ≤ 9 := by
  unfold formatPhoneNumberL
  split
  · refine ⟨((l.drop 4).filter Char.isDigit).take 9, rfl, ?_, ?_⟩
    · rw [List.all_eq_true]
      intro x hx
      exact List.of_mem_filter (List.mem_of_mem_take hx)
    · exact List.length_take_le 9 _
  · exact ⟨[], by simp, rfl, by simp⟩

lemma dropPlus254First_append (ds : Str) : dropPlus254First (plus254 ++ ds) = ds := rfl

lemma take4_append (ds : Str) : (plus254 ++ ds).take 4 = plus254 := rfl

lemma drop4_append (ds : Str) : (plus254 ++ ds).drop 4 = ds := rfl

lemma formatL_idem (l : Str) :
    formatPhoneNumberL (formatPhoneNumberL l) = formatPhoneNumberL l := by
  obtain ⟨ds, he, hall, hlen⟩ := formatL_shape l
  rw [he]
  unfold formatPhoneNumberL
  rw [take4_append, if_pos rfl, drop4_append,
    List.filter_eq_self.mpr (List.all_eq_true.mp hall), List.take_of_length_le hlen]

/-- C10: the phone-normalisation function is idempotent and prefix-preserving:
formatting an already-formatted value changes nothing, and every output is
the literal prefix `"+254"` followed by at most nine characters, all
digits. -/
theorem formatPhoneNumber_idem_shape (s : String) :
    formatPhoneNumber (formatPhoneNumber s) = formatPhoneNumber s
    ∧ (formatPhoneNumber s).data.take 4 = plus254
    ∧ ((formatPhoneNumber s).data.drop 4).all Char.isDigit = true
    ∧ ((formatPhoneNumber s).data.drop 4).length ≤ 9 := by
  obtain ⟨ds, he, hall, hlen⟩ := formatL_shape s.data
  have hdata : (formatPhoneNumber s).data = formatPhoneNumberL s.data := rfl
  refine ⟨?_, ?_, ?_, ?_⟩
  · show String.mk (formatPhoneNumberL (formatPhoneNumber s).data) = formatPhoneNumber s
    rw [hdata, formatL_idem]
    rfl
  · rw [hdata, he, take4_append]
  · rw [hdata, he, drop4_append]
    exact hall
  · rw [hdata, he, drop4_append]
    exact hlen

/-- C4 counterexample: the input `"0712345678"` is not normalised into a
stored value matching `+254` plus nine digits starting with 1 or 7 — the
formatter resets it to the bare prefix `"+254"`, which fails both the spec
pattern and the source validation. -/
theorem formatPhone_0712_counterexample :
    formatPhoneNumber "0712345678" = "+254"
    ∧ specPhonePattern (formatPhoneNumber "0712345678").data = false
    ∧ validatePhoneField (formatPhoneNumber "0712345678").data = false := by
  decide

/-- C4 (amended): on every formatted field value, the source validation
agrees exactly with the spec pattern `+254` plus nine digits starting with 1
or 7, and the phone value that registration would store equals the formatted
field value; an input that does not already start with `"+254"` (such as
`"0712345678"`) is reset to the bare `"+254"`; and a field value failing the
phone validation makes registration return a validation error without any
write. -/
theorem formatPhone_validate_amended (s : String) (f : AuthForm) (db : Db) (newId : Str) :
    validatePhoneField (formatPhoneNumber s).data = specPhonePattern (formatPhoneNumber s).data
    ∧ fullPhone (formatPhoneNumber s).data = (formatPhoneNumber s).data
    ∧ (s.data.take 4 ≠ plus254 → formatPhoneNumber s = "+254")
    ∧ (validatePhoneField f.phoneNumber = false →
        handleRegister f db newId = (RegResult.validationError, db)) := by
  obtain ⟨ds, he, hall, hlen⟩ := formatL_shape s.data
  have hdata : (formatPhoneNumber s).data = formatPhoneNumberL s.data := rfl
  refine ⟨?_, ?_, ?_, ?_⟩
  · rw [hdata, he]
    unfold validatePhoneField specPhonePattern
    rw [dropPlus254First_append, take4_append, drop4_append]
    simp
  · rw [hdata, he]
    unfold fullPhone
    rw [dropPlus254First_append]
  · intro hns
    show String.mk (formatPhoneNumberL s.data) = "+254"
    unfold formatPhoneNumberL
    rw [if_neg hns]
    rfl
  · intro hvp
    have hvf : validateRegisterForm f = false := by
      unfold validateRegisterForm
      rw [hvp]
      simp
    unfold handleRegister
    rw [hvf]
    simp

/-- A closed run of the amended C4 statement at `"0712345678"`: the formatter
resets it to `"+254"`, validation and the spec pattern agree on the result,
and a registration attempt with that field value is rejected without a
write. -/
theorem formatPhone_validate_amended_witness :
    validatePhoneField (formatPhoneNumber "0712345678").data
      = specPhonePattern (formatPhoneNumber "0712345678").data
    ∧ formatPhoneNumber "0712345678" = "+254"
    ∧ handleRegister ⟨"12345678".data, "+254".data, "Jo".data, "secret".data, "secret".data⟩
        ⟨[], []⟩ "u1".data = (RegResult.validationError, ⟨[], []⟩) := by
  have h := formatPhone_validate_amended "0712345678"
    ⟨"12345678".data, "+254".data, "Jo".data, "secret".data, "secret".data⟩ ⟨[], []⟩ "u1".data
  exact ⟨h.1, h.2.2.1 (by decide), h.2.2.2 (by decide)⟩

/-! ## Zone classification -/

/-- C3: the zone classification is a total function with the fixed inclusive
thresholds — below 5 is red, 5 to 10 yellow, 11 to 15 orange, 16 to 20
light green, above 20 dark green — including the listed boundary values. -/
theorem getZoneColor_spec (c : Nat) :
    ((getZoneColor c = zoneColors.red ↔ c < 5)
     ∧ (getZoneColor c = zoneColors.yellow ↔ 5 ≤ c ∧ c ≤ 10)
     ∧ (getZoneColor c = zoneColors.orange ↔ 11 ≤ c ∧ c ≤ 15)
     ∧ (getZoneColor c = zoneColors.lightGreen ↔ 16 ≤ c ∧ c ≤ 20)
     ∧ (getZoneColor c = zoneColors.darkGreen ↔ 21 ≤ c))
    ∧ (getZoneColor 4 = zoneColors.red ∧ getZoneColor 5 = zoneColors.yellow
       ∧ getZoneColor 10 = zoneColors.yellow ∧ getZoneColor 11 = zoneColors.orange
       ∧ getZoneColor 15 = zoneColors.orange ∧ getZoneColor 16 = zoneColors.lightGreen
       ∧ getZoneColor 20 = zoneColors.lightGreen ∧ getZoneColor 21 = zoneColors.darkGreen) := by
  constructor
  · unfold getZoneColor
    split_ifs with h1 h2 h3 h4
    · exact ⟨iff_of_true rfl h1,
        iff_of_false (by decide) (by omega), iff_of_false (by decide) (by omega),
        iff_of_false (by decide) (by omega), iff_of_false (by decide) (by omega)⟩
    · exact ⟨iff_of_false (by decide) (by omega), iff_of_true rfl (by omega),
        iff_of_false (by decide) (by omega), iff_of_false (by decide) (by omega),
        iff_of_false (by decide) (by omega)⟩
    · exact ⟨iff_of_false (by decide) (by omega), iff_of_false (by decide) (by omega),
        iff_of_true rfl (by omega), iff_of_false (by decide) (by omega),
        iff_of_false (by decide) (by omega)⟩
    · exact ⟨iff_of_false (by decide) (by omega), iff_of_false (by decide) (by omega),
        iff_of_false (by decide) (by omega), iff_of_true rfl (by omega),
        iff_of_false (by decide) (by omega)⟩
    · exact ⟨iff_of_false (by decide) (by omega), iff_of_false (by decide) (by omega),
        iff_of_false (by decide) (by omega), iff_of_false (by decide) (by omega),
        iff_of_true rfl (by omega)⟩
  · decide

/-- A closed instance of the zone thresholds at the boundary value 4. -/
theorem getZoneColor_spec_witness : getZoneColor 4 = zoneColors.red :=
  ((getZoneColor_spec 4).1.1).mpr (by decide)

/-! ## Month-key rendering -/

lemma digitChar_toNat (k : Nat) (hk : k < 10) : (digitChar k).toNat - 48 = k := by
  interval_cases k <;> decide

lemma digitChar_isDigit (k : Nat) (hk : k < 10) : (digitChar k).isDigit = true := by
  interval_cases k <;> decide

lemma mod10_lt (x : Nat) : x % 10 < 10 := Nat.mod_lt x (by omega)

/-- C9: for a valid calendar date within the modelled year range, the ledger
month key is seven characters — four year digits that read back as the
date's year, a dash, and two month digits that read back as the date's
month — and any two dates sharing year and month render to the same key. -/
theorem toISOSlice7_spec (dt : CalDate)
    (hy : dt.year ≤ 9999) (hm1 : 1 ≤ dt.month) (hm2 : dt.month ≤ 12) :
    (toISOSlice7 dt).length = 7
    ∧ natOfDec ((toISOSlice7 dt).take 4) = dt.year
    ∧ (toISOSlice7 dt).getD 4 ' ' = '-'
    ∧ natOfDec ((toISOSlice7 dt).drop 5) = dt.month
    ∧ ((toISOSlice7 dt).take 4).all Char.isDigit = true
    ∧ ((toISOSlice7 dt).drop 5).all Char.isDigit = true
    ∧ (∀ dt2 : CalDate, dt2.year = dt.year → dt2.month = dt.month →
        toISOSlice7 dt2 = toISOSlice7 dt) := by
  have e : toISOSlice7 dt
      = [digitChar (dt.year / 1000 % 10), digitChar (dt.year / 100 % 10),
         digitChar (dt.year / 10 % 10), digitChar (dt.year % 10), '-',
         digitChar (dt.month / 10 % 10), digitChar (dt.month % 10)] := rfl
  refine ⟨by rw [e]; rfl, ?_, by rw [e]; rfl, ?_, ?_, ?_, ?_⟩
  · rw [e]
    show natOfDec [digitChar (dt.year / 1000 % 10), digitChar (dt.year / 100 % 10),
      digitChar (dt.year / 10 % 10), digitChar (dt.year % 10)] = dt.year
    unfold natOfDec
    simp only [List.foldl]
    rw [digitChar_toNat _ (mod10_lt _), digitChar_toNat _ (mod10_lt _),
      digitChar_toNat _ (mod10_lt _), digitChar_toNat _ (mod10_lt _)]
    omega
  · rw [e]
    show natOfDec [digitChar (dt.month / 10 % 10), digitChar (dt.month % 10)] = dt.month
    unfold natOfDec
    simp only [List.foldl]
    rw [digitChar_toNat _ (mod10_lt _), digitChar_toNat _ (mod10_lt _)]
    omega
  · rw [e]
    show ([digitChar (dt.year / 1000 % 10), digitChar (dt.year / 100 % 10),
      digitChar (dt.year / 10 % 10), digitChar (dt.year % 10)]).all Char.isDigit = true
    simp only [List.all_cons, List.all_nil, Bool.and_true]
    rw [digitChar_isDigit _ (mod10_lt _), digitChar_isDigit _ (mod10_lt _),
      digitChar_isDigit _ (mod10_lt _), digitChar_isDigit _ (mod10_lt _)]
    rfl
  · rw [e]
    show ([digitChar (dt.month / 10 % 10), digitChar (dt.month % 10)]).all Char.isDigit = true
    simp only [List.all_cons, List.all_nil, Bool.and_true]
    rw [digitChar_isDigit _ (mod10_lt _), digitChar_isDigit _ (mod10_lt _)]
    rfl
  · intro dt2 h1 h2
    simp only [toISOSlice7, h1, h2]

/-- A closed instance of the month-key properties at 2025-10-05, with a
second date of the same month rendering to the same bucket. -/
theorem toISOSlice7_spec_witness :
    (toISOSlice7 ⟨2025, 10, 5⟩).length = 7
    ∧ natOfDec ((toISOSlice7 ⟨2025, 10, 5⟩).take 4) = 2025
    ∧ (toISOSlice7 ⟨2025, 10, 5⟩).getD 4 ' ' = '-'
    ∧ natOfDec ((toISOSlice7 ⟨2025, 10, 5⟩).drop 5) = 10
    ∧ toISOSlice7 ⟨2025, 10, 28⟩ = toISOSlice7 ⟨2025, 10, 5⟩ := by
  have h := toISOSlice7_spec ⟨2025, 10, 5⟩ (by decide) (by decide) (by decide)
  exact ⟨h.1, h.2.1, h.2.2.1, h.2.2.2.1, h.2.2.2.2.2.2 ⟨2025, 10, 28⟩ rfl rfl⟩

/-! ## Ledger lemmas -/

lemma keyMatch_eq {uid my : Str} {r : SalesRow} (h : keyMatch uid my r = true) :
    r.userId = uid ∧ r.monthYear = my := by
  unfold keyMatch at h
  simp only [Bool.and_eq_true, beq_iff_eq] at h
  exact h

lemma keyMatch_row (uid my : Str) (c : Nat) (now : Str) :
    keyMatch uid my ⟨uid, c, my, now⟩ = true := by
  unfold keyMatch
  simp

lemma filter_map_update (uid my : Str) (c : Nat) (now : Str) :
    ∀ l : List SalesRow, List.countP (keyMatch uid my) l ≤ 1 →
    (l.map (fun r => if keyMatch uid my r then (⟨r.userId, c, r.monthYear, now⟩ : SalesRow)
        else r)).filter (keyMatch uid my)
      = if l.any (keyMatch uid my) then [⟨uid, c, my, now⟩] else [] := by
  intro l
  induction l with
  | nil => intro _; rfl
  | cons x xs ih =>
    intro h
    rw [List.countP_cons] at h
    by_cases hx : keyMatch uid my x = true
    · obtain ⟨hu, hm⟩ := keyMatch_eq hx
      have hcnt : List.countP (keyMatch uid my) xs = 0 := by
        rw [hx, if_pos rfl] at h
        omega
      have hnone := List.countP_eq_zero.mp hcnt
      have hfilter : (xs.map (fun r => if keyMatch uid my r then
          (⟨r.userId, c, r.monthYear, now⟩ : SalesRow) else r)).filter (keyMatch uid my) = [] := by
        rw [List.filter_eq_nil_iff]
        intro a ha
        obtain ⟨r, hr, hra⟩ := List.mem_map.mp ha
        have hkr : ¬ keyMatch uid my r = true := hnone r hr
        rw [if_neg hkr] at hra
        rw [← hra]
        exact hkr
      have hrow : (⟨x.userId, c, x.monthYear, now⟩ : SalesRow) = ⟨uid, c, my, now⟩ := by
        rw [hu, hm]
      rw [List.map_cons, if_pos hx, hrow, List.filter_cons, List.any_cons, hx]
      simp only [keyMatch_row, if_pos, Bool.true_or, if_true, hfilter]
    · have h' : List.countP (keyMatch uid my) xs ≤ 1 := by
        rw [if_neg hx] at h
        omega
      rw [List.map_cons, if_neg hx, List.filter_cons, List.any_cons]
      have hxf : keyMatch uid my x = false := by
        rw [Bool.eq_false_iff]
        exact hx
      rw [hxf]
      simp only [Bool.false_or, if_false]
      exact ih h'

lemma filter_upsert (sales : List SalesRow) (uid my : Str) (c : Nat) (now : Str)
    (h : keyCount sales uid my ≤ 1) :
    (upsertSales sales uid my c now).filter (keyMatch uid my) = [⟨uid, c, my, now⟩] := by
  unfold upsertSales
  by_cases ha : sales.any (keyMatch uid my) = true
  · rw [if_pos ha, filter_map_update uid my c now sales h, if_pos ha]
  · rw [if_neg ha, List.filter_append]
    have h0 : sales.filter (keyMatch uid my) = [] := by
      rw [List.filter_eq_nil_iff]
      intro a haa hk
      exact ha (List.any_eq_true.mpr ⟨a, haa, hk⟩)
    rw [h0, List.nil_append, List.filter_cons, keyMatch_row]
    rfl

lemma connFor_upsert (sales : List SalesRow) (uid my : Str) (c : Nat) (now : Str)
    (h : keyCount sales uid my ≤ 1) :
    connFor (upsertSales sales uid my c now) uid my = c
    ∧ keyCount (upsertSales sales uid my c now) uid my = 1 := by
  have hf := filter_upsert sales uid my c now h
  constructor
  · unfold connFor fetchSalesSingle findSingle
    rw [hf]
    rfl
  · unfold keyCount
    rw [List.countP_eq_length_filter, hf]
    rfl

lemma connFor_of_count_zero {sales : List SalesRow} {uid my : Str}
    (h : keyCount sales uid my = 0) : connFor sales uid my = 0 := by
  unfold connFor fetchSalesSingle findSingle
  have h0 : sales.filter (keyMatch uid my) = [] := by
    rw [← List.length_eq_zero, ← List.countP_eq_length_filter]
    exact h
  rw [h0]
  rfl

lemma handleSubmit_step (uid : Str) (d : CalDate) (c : Str) (n : Nat) (db : Db) (now : Str)
    (hu : uid ≠ []) (hp : parseIntJS c = some ((n : Nat) : Int)) (ht : trimL c ≠ []) :
    handleSubmit ⟨uid, c, some d⟩ db now ⟨false, false⟩
      = (.success, ⟨db.users, upsertSales db.sales uid (toISOSlice7 d)
          (connFor db.sales uid (toISOSlice7 d) + n) now⟩) := by
  have hv : validateSalesForm ⟨uid, c, some d⟩ = true := by
    unfold validateSalesForm
    simp [hp, hu, ht]
  unfold handleSubmit
  rw [hv]
  simp [hp]

/-- The serial accumulation invariant: failure-free submissions add their
parsed deltas to the key's total and keep at most one row per key. -/
lemma serialSubmit_conn (uid : Str) (d : CalDate) (now : Str) (hu : uid ≠ []) :
    ∀ (cs : List Str) (ds : List Nat) (db : Db),
    List.Forall₂ (fun c n => parseIntJS c = some ((n : Nat) : Int) ∧ trimL c ≠ []) cs ds →
    keyCount db.sales uid (toISOSlice7 d) ≤ 1 →
    connFor (serialSubmit uid d cs db now).sales uid (toISOSlice7 d)
      = connFor db.sales uid (toISOSlice7 d) + ds.sum
    ∧ keyCount (serialSubmit uid d cs db now).sales uid (toISOSlice7 d) ≤ 1 := by
  intro cs
  induction cs with
  | nil =>
    intro ds db hf hk
    cases hf
    exact ⟨by simp [serialSubmit], hk⟩
  | cons c cs ih =>
    intro ds db hf hk
    cases ds with
    | nil => cases hf
    | cons n ds =>
      have hp : parseIntJS c = some ((n : Nat) : Int) := (List.forall₂_cons.mp hf).1.1
      have ht : trimL c ≠ [] := (List.forall₂_cons.mp hf).1.2
      have hrest := (List.forall₂_cons.mp hf).2
      have hstep := handleSubmit_step uid d c n db now hu hp ht
      have hunf : serialSubmit uid d (c :: cs) db now
          = serialSubmit uid d cs ((handleSubmit ⟨uid, c, some d⟩ db now ⟨false, false⟩).2) now :=
        rfl
      rw [hunf, hstep]
      have hc := connFor_upsert db.sales uid (toISOSlice7 d)
        (connFor db.sales uid (toISOSlice7 d) + n) now hk
      have hih := ih ds (Db.mk db.users (upsertSales db.sales uid (toISOSlice7 d)
          (connFor db.sales uid (toISOSlice7 d) + n) now)) hrest (by
        show keyCount (upsertSales db.sales uid (toISOSlice7 d)
          (connFor db.sales uid (toISOSlice7 d) + n) now) uid (toISOSlice7 d) ≤ 1
        rw [hc.2])
      refine ⟨?_, hih.2⟩
      rw [hih.1]
      show connFor (upsertSales db.sales uid (toISOSlice7 d)
          (connFor db.sales uid (toISOSlice7 d) + n) now) uid (toISOSlice7 d) + ds.sum
        = connFor db.sales uid (toISOSlice7 d) + (n :: ds).sum
      rw [hc.1, List.sum_cons]
      omega

/-- C1: starting from a store with no record for the `(user_id, month_year)`
key, a serial sequence of valid non-negative submissions leaves the key's
stored connections equal to the sum of the parsed deltas, the absent initial
record counting as 0. -/
theorem handleSubmit_serial_sum (uid : Str) (d : CalDate) (cs : List Str) (ds : List Nat)
    (db : Db) (now : Str)
    (hu : uid ≠ [])
    (hf : List.Forall₂ (fun c n => parseIntJS c = some ((n : Nat) : Int) ∧ trimL c ≠ []) cs ds)
    (hk : keyCount db.sales uid (toISOSlice7 d) = 0) :
    connFor (serialSubmit uid d cs db now).sales uid (toISOSlice7 d) = ds.sum
    ∧ connFor db.sales uid (toISOSlice7 d) = 0 := by
  have h0 := connFor_of_count_zero hk
  have h := serialSubmit_conn uid d now hu cs ds db hf (by omega)
  refine ⟨?_, h0⟩
  rw [h.1, h0]
  omega

/-- A closed run of C1: submitting "3" then "4" for a fresh agent and month
stores the total 7. -/
theorem handleSubmit_serial_sum_witness :
    connFor (serialSubmit "u1".data ⟨2025, 10, 11⟩ ["3".data, "4".data]
        ⟨[], []⟩ "t".data).sales "u1".data (toISOSlice7 ⟨2025, 10, 11⟩) = 7
    ∧ connFor (Db.mk [] []).sales "u1".data (toISOSlice7 ⟨2025, 10, 11⟩) = 0 := by
  have h := handleSubmit_serial_sum "u1".data ⟨2025, 10, 11⟩ ["3".data, "4".data] [3, 4]
    ⟨[], []⟩ "t".data (by decide)
    (List.Forall₂.cons ⟨by decide, by decide⟩
      (List.Forall₂.cons ⟨by decide, by decide⟩ List.Forall₂.nil))
    (by decide)
  exact ⟨h.1, h.2⟩

/-- C8: a submission is atomic — under the backend's at-most-one-row-per-key
invariant, either it fails (validation, fetch, or upsert) and the store is
returned exactly as it was, or it succeeds and the key's stored total is the
prior total plus the parsed delta, with the users table untouched. -/
theorem handleSubmit_atomic (f : SalesForm) (db : Db) (now : Str) (r : RemoteFlags)
    (hk : keyCount db.sales f.userId (toISOSlice7 (f.date.getD ⟨0, 0, 0⟩)) ≤ 1) :
    ((handleSubmit f db now r).2 = db ∧ (handleSubmit f db now r).1 ≠ .success)
    ∨ ((handleSubmit f db now r).1 = .success
       ∧ (handleSubmit f db now r).2.users = db.users
       ∧ connFor (handleSubmit f db now r).2.sales f.userId (toISOSlice7 (f.date.getD ⟨0, 0, 0⟩))
           = connFor db.sales f.userId (toISOSlice7 (f.date.getD ⟨0, 0, 0⟩))
             + ((parseIntJS f.connections).getD 0).toNat) := by
  unfold handleSubmit
  by_cases hv : validateSalesForm f = true
  · rw [hv]
    by_cases hfe : r.fetchFails = true
    · rw [hfe]
      exact Or.inl ⟨rfl, by simp⟩
    · rw [Bool.eq_false_iff.mpr hfe]
      by_cases hue : r.upsertFails = true
      · rw [hue]
        exact Or.inl ⟨rfl, by simp⟩
      · rw [Bool.eq_false_iff.mpr hue]
        refine Or.inr ⟨rfl, rfl, ?_⟩
        exact (connFor_upsert db.sales f.userId (toISOSlice7 (f.date.getD ⟨0, 0, 0⟩))
          (connFor db.sales f.userId (toISOSlice7 (f.date.getD ⟨0, 0, 0⟩))
            + ((parseIntJS f.connections).getD 0).toNat) now hk).1
  · rw [Bool.eq_false_iff.mpr hv]
    exact Or.inl ⟨rfl, by simp⟩

/-- A closed run of C8 on a fresh store: a valid failure-free submission of
"5" succeeds and stores total 5. -/
theorem handleSubmit_atomic_witness :
    ((handleSubmit ⟨"u1".data, "5".data, some ⟨2025, 10, 11⟩⟩ ⟨[], []⟩ "t".data
        ⟨false, false⟩).2 = ⟨[], []⟩
      ∧ (handleSubmit ⟨"u1".data, "5".data, some ⟨2025, 10, 11⟩⟩ ⟨[], []⟩ "t".data
        ⟨false, false⟩).1 ≠ .success)
    ∨ ((handleSubmit ⟨"u1".data, "5".data, some ⟨2025, 10, 11⟩⟩ ⟨[], []⟩ "t".data
        ⟨false, false⟩).1 = .success
       ∧ (handleSubmit ⟨"u1".data, "5".data, some ⟨2025, 10, 11⟩⟩ ⟨[], []⟩ "t".data
        ⟨false, false⟩).2.users = ([] : List UserRow)
       ∧ connFor (handleSubmit ⟨"u1".data, "5".data, some ⟨2025, 10, 11⟩⟩ ⟨[], []⟩ "t".data
            ⟨false, false⟩).2.sales "u1".data
            (toISOSlice7 ((some (CalDate.mk 2025 10 11)).getD ⟨0, 0, 0⟩))
           = connFor ([] : List SalesRow) "u1".data
               (toISOSlice7 ((some (CalDate.mk 2025 10 11)).getD ⟨0, 0, 0⟩))
             + ((parseIntJS "5".data).getD 0).toNat) :=
  handleSubmit_atomic ⟨"u1".data, "5".data, some ⟨2025, 10, 11⟩⟩ ⟨[], []⟩ "t".data
    ⟨false, false⟩ (by decide)

/-- C6 (spec-modelled): `recordSale` fails with `NotFound` when the given
user id references no stored user, returning the store unchanged — no write
reaches the sales ledger. -/
theorem recordSale_notFound (db : Db) (uid : Str) (d : CalDate) (delta : Nat) (now : Str)
    (pf : Bool) (h : ∀ u ∈ db.users, u.id ≠ uid) :
    recordSale db uid d delta now pf = (.error .notFound, db) := by
  unfold recordSale
  have ha : db.users.any (fun u => u.id == uid) = false := by
    rw [List.any_eq_false]
    intro u hu
    simpa using h u hu
  rw [ha]
  simp

/-- A closed run of C6: recording against an unknown user id fails with
`NotFound` and leaves the store unchanged. -/
theorem recordSale_notFound_witness :
    recordSale ⟨[⟨"u1".data, "A".data, [], [], [], false⟩], []⟩ "zz".data
        ⟨2025, 10, 11⟩ 5 "t".data false
      = (.error .notFound, ⟨[⟨"u1".data, "A".data, [], [], [], false⟩], []⟩) :=
  recordSale_notFound ⟨[⟨"u1".data, "A".data, [], [], [], false⟩], []⟩ "zz".data
    ⟨2025, 10, 11⟩ 5 "t".data false (by decide)

/-- C7: when the target month has no sales rows, the leaderboard computation
returns the empty list as a successful, non-error outcome. -/
theorem computeLeaderboard_empty (db : Db) (my : Str)
    (h : db.sales.filter (fun r => r.monthYear == my) = []) :
    fetchLeaderboard db my false = .ok [] := by
  unfold fetchLeaderboard computeLeaderboard selectMonthDesc
  rw [h]
  rfl

/-- A closed run of C7: a store whose only sales row is in another month
yields an empty, successful leaderboard for the target month. -/
theorem computeLeaderboard_empty_witness :
    fetchLeaderboard ⟨[], [⟨"u1".data, 5, "2025-08".data, "t".data⟩]⟩ "2025-09".data false
      = .ok [] :=
  computeLeaderboard_empty ⟨[], [⟨"u1".data, 5, "2025-08".data, "t".data⟩]⟩ "2025-09".data
    (by decide)

/-! ## Leaderboard ranking -/

lemma rankify_length : ∀ (l : List (SalesRow × UserRow)) (i : Nat),
    (rankify i l).length = l.length := by
  intro l
  induction l with
  | nil => intro i; rfl
  | cons p rest ih =>
    intro i
    obtain ⟨r, u⟩ := p
    show (rankify i ((r, u) :: rest)).length = rest.length + 1
    unfold rankify
    rw [List.length_cons, ih (i + 1)]

lemma rankify_ranks : ∀ (l : List (SalesRow × UserRow)) (i : Nat),
    (rankify i l).map LeaderboardItem.rank = (List.range l.length).map (fun j => i + j + 1) := by
  intro l
  induction l with
  | nil => intro i; rfl
  | cons p rest ih =>
    intro i
    obtain ⟨r, u⟩ := p
    show (⟨r.userId, displayName u.name, r.connections, i + 1⟩ :: rankify (i + 1) rest).map
        LeaderboardItem.rank
      = (List.range (rest.length + 1)).map (fun j => i + j + 1)
    rw [List.map_cons, ih (i + 1), List.range_succ_eq_map, List.map_cons, List.map_map]
    have harith : ((fun j => i + j + 1) ∘ Nat.succ) = fun j => (i + 1) + j + 1 := by
      funext j
      simp only [Function.comp]
      omega
    rw [harith]

lemma rankify_conn_mem : ∀ (l : List (SalesRow × UserRow)) (i : Nat)
    (x : LeaderboardItem), x ∈ rankify i l →
    ∃ p ∈ l, x.connections = (p : SalesRow × UserRow).1.connections := by
  intro l
  induction l with
  | nil => intro i x hx; cases hx
  | cons p rest ih =>
    intro i x hx
    obtain ⟨r, u⟩ := p
    rcases List.mem_cons.mp hx with h | h
    · exact ⟨(r, u), List.mem_cons_self _ _, by rw [h]⟩
    · obtain ⟨q, hq, hcq⟩ := ih (i + 1) x h
      exact ⟨q, List.mem_cons_of_mem _ hq, hcq⟩

lemma rankify_pairwise : ∀ (l : List (SalesRow × UserRow)) (i : Nat),
    l.Pairwise (fun p q => q.1.connections ≤ p.1.connections) →
    (rankify i l).Pairwise (fun a b => b.connections ≤ a.connections) := by
  intro l
  induction l with
  | nil => intro i _; exact List.Pairwise.nil
  | cons p rest ih =>
    intro i hp
    obtain ⟨r, u⟩ := p
    cases hp with
    | cons hhead htail =>
      refine List.Pairwise.cons ?_ (ih (i + 1) htail)
      intro y hy
      obtain ⟨q, hq, hyc⟩ := rankify_conn_mem rest (i + 1) y hy
      rw [hyc]
      exact hhead q hq

lemma joinUsers_pairwise (users : List UserRow) (rows : List SalesRow)
    (h : rows.Pairwise connDesc) :
    (joinUsers users rows).Pairwise (fun p q => q.1.connections ≤ p.1.connections) := by
  unfold joinUsers
  rw [List.pairwise_filterMap]
  refine h.imp ?_
  intro a b hab x hx y hy
  rw [Option.mem_def, Option.map_eq_some'] at hx hy
  obtain ⟨u, _, hxu⟩ := hx
  obtain ⟨v, _, hyv⟩ := hy
  rw [← hxu, ← hyv]
  exact hab

lemma selectMonthDesc_sorted (sales : List SalesRow) (my : Str) :
    (selectMonthDesc sales my).Pairwise connDesc :=
  List.sorted_insertionSort connDesc _

/-- A three-user store with a tie on 30 connections, stored in fetch order
Zed before Ann, used to pin the tie-breaking behaviour. -/
def exampleDb : Db :=
  ⟨[⟨"a".data, "Zed".data, [], [], [], false⟩,
    ⟨"b".data, "Ann".data, [], [], [], false⟩,
    ⟨"c".data, "Cal".data, [], [], [], false⟩],
   [⟨"a".data, 30, "2025-09".data, "t".data⟩,
    ⟨"b".data, 30, "2025-09".data, "t".data⟩,
    ⟨"c".data, 10, "2025-09".data, "t".data⟩]⟩

/-- C2: the leaderboard is sorted descending by connections and carries dense
1-based ranks (position in sorted order plus one); ties keep fetch order and
receive consecutive distinct ranks — for connections `[30, 30, 10]` the
ranks are `[1, 2, 3]`, not re-sorted by name. -/
theorem leaderboard_rank_dense :
    (∀ (db : Db) (my : Str),
      (computeLeaderboard db my).map LeaderboardItem.rank
        = (List.range (computeLeaderboard db my).length).map (fun j => j + 1)
      ∧ (computeLeaderboard db my).Pairwise (fun a b => b.connections ≤ a.connections))
    ∧ computeLeaderboard exampleDb "2025-09".data
        = [⟨"a".data, "Zed".data, 30, 1⟩, ⟨"b".data, "Ann".data, 30, 2⟩,
           ⟨"c".data, "Cal".data, 10, 3⟩] := by
  constructor
  · intro db my
    constructor
    · unfold computeLeaderboard
      rw [rankify_ranks, rankify_length]
      have : (fun j => 0 + j + 1) = fun j : Nat => j + 1 := by
        funext j
        omega
      rw [this]
    · exact rankify_pairwise _ 0 (joinUsers_pairwise _ _ (selectMonthDesc_sorted _ _))
  · decide

/-! ## Registration conflicts -/

lemma countP_le_one_of_pairwise {α : Type} (p : α → Bool) :
    ∀ l : List α, l.Pairwise (fun a b => ¬(p a = true ∧ p b = true)) → l.countP p ≤ 1 := by
  intro l
  induction l with
  | nil => intro _; simp
  | cons x xs ih =>
    intro h
    cases h with
    | cons hx hxs =>
      rw [List.countP_cons]
      by_cases hpx : p x = true
      · have h0 : xs.countP p = 0 :=
          List.countP_eq_zero.mpr (fun a ha hpa => (hx a ha) ⟨hpx, hpa⟩)
        rw [h0, hpx, if_pos rfl]
      · rw [if_neg hpx]
        have := ih hxs
        omega

lemma findSingle_of_unique {α : Type} (p : α → Bool) (l : List α)
    (hle : l.countP p ≤ 1) (hex : ∃ a ∈ l, p a = true) :
    ∃ u, findSingle p l = some u := by
  have h1 : l.countP p = 1 := by
    have hpos : 0 < l.countP p := List.countP_pos_iff.mpr hex
    omega
  have hlen : (l.filter p).length = 1 := by
    rw [← List.countP_eq_length_filter]
    exact h1
  obtain ⟨u, hu⟩ := List.length_eq_one.mp hlen
  refine ⟨u, ?_⟩
  unfold findSingle
  rw [hu]

lemma findSingle_none {α : Type} (p : α → Bool) (l : List α)
    (h : ∀ a ∈ l, ¬ p a = true) : findSingle p l = none := by
  unfold findSingle
  rw [List.filter_eq_nil_iff.mpr h]

/-- C5: under the uniqueness invariant on stored users, a validation-passing
registration whose normalised phone number or trimmed ID number already
belongs to a stored user fails with a conflict and performs no write. -/
theorem handleRegister_conflict (f : AuthForm) (db : Db) (newId : Str)
    (hv : validateRegisterForm f = true)
    (huniq : usersUnique db)
    (hdup : ∃ u ∈ db.users,
      u.phoneNumber = fullPhone f.phoneNumber ∨ u.idNumber = trimL f.idNumber) :
    ((handleRegister f db newId).1 = .conflictPhone
      ∨ (handleRegister f db newId).1 = .conflictId)
    ∧ (handleRegister f db newId).2 = db := by
  unfold handleRegister
  rw [hv]
  simp only [Bool.not_true]
  by_cases hp : ∃ u ∈ db.users, u.phoneNumber = fullPhone f.phoneNumber
  · have hle : db.users.countP (fun u => u.phoneNumber == fullPhone f.phoneNumber) ≤ 1 := by
      apply countP_le_one_of_pairwise
      refine huniq.imp ?_
      intro a b hab hpab
      exact hab.1 (by
        have h1 : a.phoneNumber = fullPhone f.phoneNumber := by simpa using hpab.1
        have h2 : b.phoneNumber = fullPhone f.phoneNumber := by simpa using hpab.2
        rw [h1, h2])
    obtain ⟨u, hu, hup⟩ := hp
    obtain ⟨w, hw⟩ := findSingle_of_unique _ db.users hle ⟨u, hu, by simp [hup]⟩
    rw [hw]
    exact ⟨Or.inl rfl, rfl⟩
  · have hpnone : findSingle (fun u => u.phoneNumber == fullPhone f.phoneNumber)
        db.users = none := by
      apply findSingle_none
      intro a ha hpa
      exact hp ⟨a, ha, by simpa using hpa⟩
    obtain ⟨u, hu, hor⟩ := hdup
    have hid : u.idNumber = trimL f.idNumber :=
      hor.resolve_left (fun hph => hp ⟨u, hu, hph⟩)
    have hle : db.users.countP (fun u => u.idNumber == trimL f.idNumber) ≤ 1 := by
      apply countP_le_one_of_pairwise
      refine huniq.imp ?_
      intro a b hab hpab
      exact hab.2 (by
        have h1 : a.idNumber = trimL f.idNumber := by simpa using hpab.1
        have h2 : b.idNumber = trimL f.idNumber := by simpa using hpab.2
        rw [h1, h2])
    obtain ⟨w, hw⟩ := findSingle_of_unique _ db.users hle ⟨u, hu, by simp [hid]⟩
    rw [hpnone, hw]
    exact ⟨Or.inr rfl, rfl⟩

/-- A closed run of C5: re-registering an already-stored phone number is
refused as a conflict and the user table is unchanged. -/
theorem handleRegister_conflict_witness :
    ((handleRegister ⟨"12345678".data, "+254712345678".data, "Jo".data, "secret".data,
        "secret".data⟩
        ⟨[⟨"u0".data, "Old".data, "+254712345678".data, "99999999".data, "pw".data, false⟩], []⟩
        "u1".data).1 = .conflictPhone
      ∨ (handleRegister ⟨"12345678".data, "+254712345678".data, "Jo".data, "secret".data,
        "secret".data⟩
        ⟨[⟨"u0".data, "Old".data, "+254712345678".data, "99999999".data, "pw".data, false⟩], []⟩
        "u1".data).1 = .conflictId)
    ∧ (handleRegister ⟨"12345678".data, "+254712345678".data, "Jo".data, "secret".data,
        "secret".data⟩
        ⟨[⟨"u0".data, "Old".data, "+254712345678".data, "99999999".data, "pw".data, false⟩], []⟩
        "u1".data).2
      = ⟨[⟨"u0".data, "Old".data, "+254712345678".data, "99999999".data, "pw".data, false⟩], []⟩ := by
  have h := handleRegister_conflict
    ⟨"12345678".data, "+254712345678".data, "Jo".data, "secret".data, "secret".data⟩
    ⟨[⟨"u0".data, "Old".data, "+254712345678".data, "99999999".data, "pw".data, false⟩], []⟩
    "u1".data (by decide)
    (by unfold usersUnique; exact List.pairwise_singleton _ _)
    ⟨⟨"u0".data, "Old".data, "+254712345678".data, "99999999".data, "pw".data, false⟩,
      by simp, Or.inl (by decide)⟩
  exact h

end EBU
